import Mathlib

/-!
Verification development for the vlmx-sh2 command interpretation pipeline.

Shallow embedding of the modules the claims touch:
- `src/vlmx_sh2/enums.py`   : `WordType`, `TokenType`
- `src/vlmx_sh2/words.py`   : `Word`, the word registry, `get_word`
- `src/vlmx_sh2/syntax.py`  : `WordOrder.get_order`,
  `SyntaxRules.validate_command_structure`, `SyntaxRules.sort_words_by_type`,
  `SyntaxRules.get_expected_next_word_types`, `is_valid_command`,
  `get_composition_error`
- `src/vlmx_sh2/commands.py`: `CommandWords`, `Command.validate_words`,
  `CommandRegistry.find_matching_commands`, the two registered commands
- `src/vlmx_sh2/core/context.py`: `Context` construction validators
- `src/vlmx_sh2/parser.py`  : tokenizer, word recognizer (with the fuzzy
  scorer abstracted as a parameter, as the spec's pluggable-scorer design
  note sanctions), value extractors, `VLMXParser.parse`

Python `set`s are modelled as duplicate-free lists with set operations
(`py_set`, `set_subset`, `set_diff`, `set_union`); Python `dict`s (which
keep insertion order and overwrite on repeated assignment) as association
lists updated by `dict_insert`.  Machine integers do not occur; Python
`int` is `Int`.  Fallible code (pydantic validation, attribute errors
caught by `parse`'s `try/except`) is modelled with `Except String`.
String primitives (`split`, `strip`, `lower`, substring search) are
implemented over `List Char` so that every definition evaluates by kernel
reduction.
-/

/-- `WordType` from enums.py (five members; `FILTER` is declared but no
registry word uses it, and `WordOrder.get_order` has no entry for it). -/
inductive WordType where
  | action
  | modifier
  | entity
  | attribute
  | filter
deriving DecidableEq

/-- `TokenType` from enums.py. -/
inductive TokenType where
  | word
  | value
  | flag
  | unknown
deriving DecidableEq

/-- A vocabulary word (words.py).  The source has one subclass per word type
carrying extra metadata (`action_category`, `entity_model`, ...); none of that
metadata is read by the tokenizing/validation/matching code the claims are
about, so the embedding keeps the shared fields that are. -/
structure Word where
  id : String
  word_type : WordType
  aliases : List String
  abbreviations : List String
deriving DecidableEq

/-- `create` (ActionWord) from words.py. -/
def wCreate : Word := ⟨"create", .action, ["add", "new"], ["c"]⟩

/-- `delete` (ActionWord) from words.py. -/
def wDelete : Word := ⟨"delete", .action, ["remove", "drop"], ["d"]⟩

/-- `company` (EntityWord) from words.py. -/
def wCompany : Word := ⟨"company", .entity, ["business", "firm"], ["co"]⟩

/-- `entity` (AttributeWord) from words.py. -/
def wEntity : Word := ⟨"entity", .attribute, ["entity_type", "legal_entity"], ["ent"]⟩

/-- `currency` (AttributeWord) from words.py. -/
def wCurrency : Word := ⟨"currency", .attribute, ["curr"], ["cur"]⟩

/-- `WORDS` from words.py, in source order. -/
def WORDS : List Word := [wCreate, wDelete, wCompany, wEntity, wCurrency]

/-- `get_word` from words.py: lookup in `WORD_REGISTRY = {w.id: w for w in
WORDS}`.  Word ids are pairwise distinct, so `find?` over the list is the
same lookup. -/
def get_word (word_id : String) : Option Word :=
  WORDS.find? (fun w => w.id = word_id)

/-- `WordOrder.get_order` from syntax.py.  The mapping covers the four
ordered types; `mapping.get(word_type, 999)` sends anything else (FILTER)
to 999, "unknown types go last". -/
def get_order : WordType → Nat
  | .action => 1
  | .modifier => 2
  | .entity => 3
  | .attribute => 4
  | .filter => 999

/-- `.value` of the WordType enum member (enums.py). -/
def word_type_value : WordType → String
  | .action => "action"
  | .modifier => "modifier"
  | .entity => "entity"
  | .attribute => "attribute"
  | .filter => "filter"

/-- `str(word.word_type)` as Python's f-string renders an Enum member. -/
def word_type_repr : WordType → String
  | .action => "WordType.ACTION"
  | .modifier => "WordType.MODIFIER"
  | .entity => "WordType.ENTITY"
  | .attribute => "WordType.ATTRIBUTE"
  | .filter => "WordType.FILTER"

def empty_command_msg : String :=
  "Command cannot be empty (at least 1 word required)"

def unknown_type_msg (w : Word) : String :=
  "Unknown word type: " ++ word_type_repr w.word_type

def early_attribute_msg (w : Word) : String :=
  "Attribute '" ++ w.id ++ "' cannot come before ACTION, MODIFIER, or ENTITY words. " ++
    "Expected order: ACTION → MODIFIER → ENTITY → ATTRIBUTES"

def invalid_order_msg (w : Word) : String :=
  "Invalid word order: '" ++ w.id ++ "' (" ++ word_type_value w.word_type ++ ") " ++
    "cannot come after a word of higher precedence. " ++
    "Expected order: ACTION → MODIFIER → ENTITY → ATTRIBUTES"

/-- The loop body of `SyntaxRules.validate_command_structure` (syntax.py
lines 100-137).  `last_order` is the running precedence of the last
non-Attribute word; `has_non_attributes` is `any(w.word_type !=
WordType.ATTRIBUTE for w in words)` over the whole input list, which the
source evaluates (to the same value) at the first attribute seen while
`last_order == 0`. -/
def validate_go (has_non_attributes : Bool) : List Word → Nat → Bool × String
  | [], _ => (true, "")
  | w :: rest, last_order =>
    let current_order := get_order w.word_type
    if current_order = 999 then (false, unknown_type_msg w)
    else if w.word_type = .attribute then
      if 0 < last_order ∧ last_order < 4 then validate_go has_non_attributes rest last_order
      else if last_order = 0 then
        if has_non_attributes then (false, early_attribute_msg w)
        else validate_go has_non_attributes rest last_order
      else validate_go has_non_attributes rest last_order
    else if current_order < last_order then (false, invalid_order_msg w)
    else validate_go has_non_attributes rest current_order

/-- `SyntaxRules.validate_command_structure` from syntax.py. -/
def validate_command_structure (words : List Word) : Bool × String :=
  if words.isEmpty then (false, empty_command_msg)
  else validate_go (words.any fun w => w.word_type ≠ .attribute) words 0

/-- `is_valid_command` from syntax.py. -/
def is_valid_command (words : List Word) : Bool :=
  (validate_command_structure words).1

/-- `get_composition_error` from syntax.py. -/
def get_composition_error (words : List Word) : Option String :=
  let r := validate_command_structure words
  if r.1 then none else some r.2

/-- `SyntaxRules.sort_words_by_type` from syntax.py: group by type in the
fixed precedence order, each group keeping its relative input order. -/
def sort_words_by_type (words : List Word) : List Word :=
  (words.filter fun w => w.word_type = .action) ++
    (words.filter fun w => w.word_type = .modifier) ++
    (words.filter fun w => w.word_type = .entity) ++
    (words.filter fun w => w.word_type = .attribute)

/-- The `max_order` loop of `SyntaxRules.get_expected_next_word_types`:
highest precedence among non-Attribute words seen, starting from 0. -/
def max_non_attribute_order (words : List Word) : Nat :=
  words.foldl
    (fun m w => if w.word_type ≠ .attribute then max m (get_order w.word_type) else m) 0

/-- `SyntaxRules.get_expected_next_word_types` from syntax.py. -/
def get_expected_next_word_types (current_words : List Word) : List WordType :=
  if current_words.isEmpty then [.action, .modifier, .entity, .attribute]
  else
    let max_order := max_non_attribute_order current_words
    [WordType.attribute] ++
      (if max_order < 1 then [WordType.action] else []) ++
      (if max_order < 2 then [WordType.modifier] else []) ++
      (if max_order < 3 then [WordType.entity] else [])

/-! Specification-side helper predicates used to characterise the validator. -/

/-- Precedences of the non-Attribute words, in sequence order. -/
def orders_of (words : List Word) : List Nat :=
  (words.filter fun w => w.word_type ≠ .attribute).map (fun w => get_order w.word_type)

/-- A list of naturals is non-decreasing. -/
def nonDecreasing : List Nat → Bool
  | [] => true
  | [_] => true
  | a :: b :: rest => a ≤ b && nonDecreasing (b :: rest)

/-- No Attribute word precedes the first non-Attribute word: either the
sequence is all Attributes, or it starts with a non-Attribute word. -/
def no_leading_attribute (words : List Word) : Bool :=
  (words.all fun w => w.word_type = .attribute) ||
    (match words with
     | [] => true
     | w :: _ => w.word_type ≠ .attribute)

/-- The head of the sequence (when there is one) is not an Attribute word. -/
def head_not_attribute : List Word → Bool
  | [] => true
  | w :: _ => w.word_type ≠ .attribute

theorem get_order_action : get_order .action = 1 := rfl

theorem get_order_modifier : get_order .modifier = 2 := rfl

theorem get_order_entity : get_order .entity = 3 := rfl

theorem get_order_attribute : get_order .attribute = 4 := rfl

theorem get_order_filter : get_order .filter = 999 := rfl

/-- In the running regime `0 < last_order < 4`, the validator loop accepts
exactly when no word has an unknown type and the non-Attribute precedences,
prefixed with `last_order`, are non-decreasing. -/
theorem validate_go_pos (h : Bool) :
    ∀ (l : List Word) (k : Nat), 0 < k → k < 4 →
      ((validate_go h l k).1 = true ↔
        (l.all fun w => w.word_type ≠ .filter) = true ∧
          nonDecreasing (k :: orders_of l) = true) := by
  intro l
  induction l with
  | nil =>
    intro k hk1 hk4
    simp [validate_go, orders_of, nonDecreasing]
  | cons w rest ih =>
    intro k hk1 hk4
    cases hw : w.word_type
    -- action
    · simp only [validate_go, hw, get_order_action, orders_of, List.all_cons, List.filter_cons,
        List.map_cons]
      by_cases hlt : 1 < k
      · have hnk : ¬ k ≤ 1 := by omega
        simp [hlt, hw, get_order_action, nonDecreasing, hnk, orders_of]
      · have hk : k ≤ 1 := by omega
        simp [hlt, hw, get_order_action, nonDecreasing, hk, orders_of,
          ih 1 (by omega) (by omega), and_assoc]
    -- modifier
    · simp only [validate_go, hw, get_order_modifier, orders_of, List.all_cons, List.filter_cons,
        List.map_cons]
      by_cases hlt : 2 < k
      · have hnk : ¬ k ≤ 2 := by omega
        simp [hlt, hw, get_order_modifier, nonDecreasing, hnk, orders_of]
      · have hk : k ≤ 2 := by omega
        simp [hlt, hw, get_order_modifier, nonDecreasing, hk, orders_of,
          ih 2 (by omega) (by omega), and_assoc]
    -- entity
    · simp only [validate_go, hw, get_order_entity, orders_of, List.all_cons, List.filter_cons,
        List.map_cons]
      by_cases hlt : 3 < k
      · have hnk : ¬ k ≤ 3 := by omega
        simp [hlt, hw, get_order_entity, nonDecreasing, hnk, orders_of]
      · have hk : k ≤ 3 := by omega
        simp [hlt, hw, get_order_entity, nonDecreasing, hk, orders_of,
          ih 3 (by omega) (by omega), and_assoc]
    -- attribute
    · have h04 : 0 < k ∧ k < 4 := ⟨hk1, hk4⟩
      simp [validate_go, hw, get_order_attribute, h04, orders_of, ih k hk1 hk4]
    -- filter
    · simp [validate_go, hw, get_order_filter]

/-- With `has_non_attributes = false` the loop started at 0 accepts exactly
when types are known and the non-Attribute precedences are non-decreasing. -/
theorem validate_go_zero_false :
    ∀ l : List Word,
      ((validate_go false l 0).1 = true ↔
        (l.all fun w => w.word_type ≠ .filter) = true ∧
          nonDecreasing (orders_of l) = true) := by
  intro l
  induction l with
  | nil => simp [validate_go, orders_of, nonDecreasing]
  | cons w rest ih =>
    cases hw : w.word_type
    -- action
    · simp [validate_go, hw, get_order_action, orders_of,
        validate_go_pos false rest 1 (by omega) (by omega), and_assoc]
    -- modifier
    · simp [validate_go, hw, get_order_modifier, orders_of,
        validate_go_pos false rest 2 (by omega) (by omega), and_assoc]
    -- entity
    · simp [validate_go, hw, get_order_entity, orders_of,
        validate_go_pos false rest 3 (by omega) (by omega), and_assoc]
    -- attribute
    · simp [validate_go, hw, get_order_attribute, orders_of, ih]
    -- filter
    · simp [validate_go, hw, get_order_filter]

/-- With `has_non_attributes = true` the loop started at 0 additionally
rejects a leading Attribute word. -/
theorem validate_go_zero_true :
    ∀ l : List Word,
      ((validate_go true l 0).1 = true ↔
        (l.all fun w => w.word_type ≠ .filter) = true ∧
          nonDecreasing (orders_of l) = true ∧ head_not_attribute l = true) := by
  intro l
  cases l with
  | nil => simp [validate_go, orders_of, nonDecreasing, head_not_attribute]
  | cons w rest =>
    cases hw : w.word_type
    -- action
    · simp [validate_go, hw, get_order_action, orders_of, head_not_attribute,
        validate_go_pos true rest 1 (by omega) (by omega), and_assoc]
    -- modifier
    · simp [validate_go, hw, get_order_modifier, orders_of, head_not_attribute,
        validate_go_pos true rest 2 (by omega) (by omega), and_assoc]
    -- entity
    · simp [validate_go, hw, get_order_entity, orders_of, head_not_attribute,
        validate_go_pos true rest 3 (by omega) (by omega), and_assoc]
    -- attribute
    · simp [validate_go, hw, get_order_attribute, head_not_attribute]
    -- filter
    · simp [validate_go, hw, get_order_filter]

/-- Characterisation of `validate_command_structure`: it accepts exactly the
non-empty sequences of known-type words whose non-Attribute precedences are
non-decreasing and in which no Attribute word precedes the first
non-Attribute word (all-Attribute sequences being allowed). -/
theorem validate_iff (l : List Word) :
    is_valid_command l = true ↔
      l ≠ [] ∧ (l.all fun w => w.word_type ≠ .filter) = true ∧
        nonDecreasing (orders_of l) = true ∧ no_leading_attribute l = true := by
  cases l with
  | nil => simp [is_valid_command, validate_command_structure]
  | cons w rest =>
    simp only [is_valid_command, validate_command_structure, List.isEmpty_cons,
      Bool.false_eq_true, if_false, ne_eq, reduceCtorEq, not_false_eq_true, true_and]
    by_cases hna : ((w :: rest).any fun x => x.word_type ≠ .attribute) = true
    · have hallf : ((w :: rest).all fun x => x.word_type = .attribute) = false := by
        rcases List.any_eq_true.mp hna with ⟨x, hx, hxt⟩
        have hxf : x.word_type ≠ WordType.attribute := by simpa using hxt
        exact List.all_eq_false.mpr ⟨x, hx, by simp [hxf]⟩
      rw [hna]
      rw [validate_go_zero_true]
      simp [no_leading_attribute, head_not_attribute, hallf]
    · have hna' := hna
      rw [Bool.not_eq_true] at hna'
      have hall : ((w :: rest).all fun x => x.word_type = .attribute) = true := by
        rw [List.all_eq_true]
        intro x hx
        have := List.any_eq_false.mp hna' x hx
        simpa using this
      have horders : orders_of (w :: rest) = [] := by
        simp only [orders_of, List.map_eq_nil_iff, List.filter_eq_nil_iff]
        intro x hx
        have := List.all_eq_true.mp hall x hx
        simp [this]
      rw [hna']
      rw [validate_go_zero_false]
      have hnf : ((w :: rest).all fun x => x.word_type ≠ .filter) = true := by
        rw [List.all_eq_true]
        intro x hx
        have := List.all_eq_true.mp hall x hx
        simp_all
      simp [horders, nonDecreasing, no_leading_attribute, hall, hnf]

/-! Commands (commands.py). -/

/-- Python sets of word ids are modelled as duplicate-free lists.  Every
set observation the pipeline makes (membership, subset, difference,
emptiness) is independent of the order; only the joined error messages
depend on iteration order, which Python leaves unspecified (hash-based), and
every claim that evaluates such a message does so on a singleton set. -/
def py_set_insert (s : List String) (x : String) : List String :=
  if s.contains x then s else s ++ [x]

/-- Python `set(iterable)`. -/
def py_set (l : List String) : List String :=
  l.foldl py_set_insert []

/-- Python `a.issubset(b)` / `a <= b` on sets. -/
def set_subset (a b : List String) : Bool :=
  a.all b.contains

/-- Python `a - b` on sets. -/
def set_diff (a b : List String) : List String :=
  a.filter (fun x => !b.contains x)

/-- Python `a.update(b)` on a copy of `a`: union keeping `a` first. -/
def set_union (a b : List String) : List String :=
  b.foldl py_set_insert a

/-- `', '.join(...)` over a set's elements. -/
def join_comma : List String → String
  | [] => ""
  | [x] => x
  | x :: xs => x ++ ", " ++ join_comma xs

/-- `CommandWords` from commands.py: required and optional word-id sets.  The
source's pydantic validators (ids resolve in the registry, no overlap) hold
for the two registered commands below. -/
structure CommandWords where
  required_words : List String
  optional_words : List String
deriving DecidableEq

/-- `CommandWords.get_all_words`: `required.copy()` then `update(optional)`. -/
def CommandWords.get_all_words (cw : CommandWords) : List String :=
  set_union cw.required_words cw.optional_words

/-- `Command` from commands.py.  The source declares the field holding the
`CommandWords` under the name `syntax`, a reserved word here, so the
embedding calls it `syntax_words`; `handler` and `examples` are never read
by the parsing pipeline and are omitted. -/
structure Command where
  command_id : String
  description : String
  syntax_words : CommandWords
deriving DecidableEq

/-- The `create_company` registration (commands.py lines 486-495). -/
def create_company : Command :=
  ⟨"create_company", "Create a new company entity",
    ⟨["create", "company"], ["entity", "currency"]⟩⟩

/-- The `delete_company` registration (commands.py lines 506-511). -/
def delete_company : Command :=
  ⟨"delete_company", "Delete an existing company entity",
    ⟨["delete", "company"], []⟩⟩

/-- The module-level `_command_registry` after import: the two
`@register_command` decorations run in source order, and
`register_advanced_commands()` is left commented out.  The registry dict
iterates in this insertion order. -/
def command_registry : List Command := [create_company, delete_company]

/-- The word-object resolution loop of `Command.validate_words`: the source
returns `(False, f"Unknown word ID: {word_id}")` at the first id that does
not resolve. -/
def resolve_word_objects : List String → Except String (List Word)
  | [] => .ok []
  | wid :: rest =>
    match get_word wid with
    | none => .error wid
    | some w =>
      match resolve_word_objects rest with
      | .error e => .error e
      | .ok ws => .ok (w :: ws)

/-- `Command.validate_words` from commands.py. -/
def Command.validate_words (cmd : Command) (word_ids : List String) : Bool × String :=
  let word_set := py_set word_ids
  let missing_required := set_diff cmd.syntax_words.required_words word_set
  if missing_required ≠ [] then
    (false, "Missing required words: " ++ join_comma missing_required)
  else
    let unknown_words := set_diff word_set cmd.syntax_words.get_all_words
    if unknown_words ≠ [] then
      (false, "Unknown words for this command: " ++ join_comma unknown_words)
    else
      match resolve_word_objects word_ids with
      | .error wid => (false, "Unknown word ID: " ++ wid)
      | .ok word_objects =>
        match get_composition_error word_objects with
        | some err => (false, err)
        | none => (true, "")

/-- `CommandRegistry.find_matching_commands` from commands.py: resolve the
ids (skipping misses, then comparing lengths), reject the whole query when
the word objects fail composition validation, else keep the registry
commands whose full word set contains every provided id. -/
def find_matching_commands (registry : List Command) (word_ids : List String) : List Command :=
  let word_set := py_set word_ids
  let word_objects := word_ids.filterMap get_word
  if word_objects.length ≠ word_ids.length then []
  else if ¬ is_valid_command word_objects = true then []
  else registry.filter fun command =>
    set_subset word_set command.syntax_words.get_all_words

/-- `find_commands` from commands.py: the module-level registry lookup. -/
def find_commands (word_ids : List String) : List Command :=
  find_matching_commands command_registry word_ids

/-- `VLMXParser._select_best_command` from parser.py.  With zero or one
candidate the source returns without ranking.  With two or more it sorts by
a score function whose first line reads `cmd.words.required_words` — but
`Command` declares that field as `syntax`, so pydantic raises
`AttributeError("'Command' object has no attribute 'words'")` on the first
key computation; the embedding models that exception as an `Except.error`
with `str(e)`. -/
def select_best_command (commands : List Command) (recognized_words : List Word) :
    Except String (Option Command) :=
  match commands, recognized_words with
  | [], _ => .ok none
  | [c], _ => .ok (some c)
  | _ :: _ :: _, _ => .error "'Command' object has no attribute 'words'"

/-! Navigation context (core/context.py). -/

/-- `Context` from core/context.py, restricted to the fields the
level-consistency validator reads (`sys_path`, `org_db_path` and the session
fields are never examined by either validator). -/
structure Context where
  level : Int
  org_id : Option Int
  org_name : Option String
  app_id : Option String
deriving DecidableEq

/-- Python truthiness of an `Optional[int]`: `None` and `0` are falsy. -/
def py_truthy_int : Option Int → Bool
  | none => false
  | some n => n != 0

/-- Python truthiness of an `Optional[str]`: `None` and `""` are falsy. -/
def py_truthy_str : Option String → Bool
  | none => false
  | some s => s != ""

/-- `Context._validate_level_consistency` from core/context.py.  Note two
faithful oddities of the source: the level-0 check uses truthiness
(`any((org_id, org_name, app_id))`), and the level-1 application check is the
chained comparison `self.app_id is None is False and self.app_id is not
None`, which evaluates as `((app_id is None) and (None is False)) and
(app_id is not None)` — identically false, so its error branch is dead. -/
def validate_level_consistency (c : Context) : Except String Context :=
  if c.level = 0 then
    if py_truthy_int c.org_id || py_truthy_str c.org_name || py_truthy_str c.app_id then
      .error "At level 0 (sys), org_id, org_name, and app_id must all be None"
    else .ok c
  else if c.level = 1 then
    if c.org_id = none ∨ c.org_name = none then
      .error "At level 1 (org), org_id and org_name must not be None"
    else if (decide (c.app_id = none) && false) && decide (c.app_id ≠ none) then
      .error "At level 1 (org), app_id must be None"
    else .ok c
  else if c.level = 2 then
    if c.org_id = none ∨ c.org_name = none ∨ c.app_id = none then
      .error "At level 2 (app), org_id, org_name, and app_id must not be None"
    else .ok c
  else .ok c

/-- Pydantic construction of a `Context`: the `level` field validator runs
first, then the `_validate_level_consistency` model validator. -/
def construct_context (level : Int) (org_id : Option Int) (org_name : Option String)
    (app_id : Option String) : Except String Context :=
  if level = 0 ∨ level = 1 ∨ level = 2 then
    validate_level_consistency ⟨level, org_id, org_name, app_id⟩
  else .error "level must be 0, 1, or 2"

/-! The parser pipeline (parser.py). -/

/-- Substring occurrence over character lists (an empty pattern occurs
everywhere, as in Python). -/
def list_contains_sub (pat : List Char) : List Char → Bool
  | [] => pat.isEmpty
  | c :: rest => pat.isPrefixOf (c :: rest) || list_contains_sub pat rest

/-- Python's `pat in s` substring test. -/
def str_contains (s pat : String) : Bool :=
  list_contains_sub pat.data s.data

/-- Split around the first occurrence of `pat`: `(before, after)`. -/
def find_sub_split (pat : List Char) : List Char → Option (List Char × List Char)
  | [] => if pat.isPrefixOf ([] : List Char) then some ([], []) else none
  | c :: rest =>
    if pat.isPrefixOf (c :: rest) then some ([], (c :: rest).drop pat.length)
    else (find_sub_split pat rest).map (fun pr => (c :: pr.1, pr.2))

/-- The whitespace-run splitter behind Python's `text.split()`. -/
def split_ws_aux : List Char → List Char → List String
  | [], acc => if acc.isEmpty then [] else [String.mk acc.reverse]
  | c :: cs, acc =>
    if c.isWhitespace then
      (if acc.isEmpty then [] else [String.mk acc.reverse]) ++ split_ws_aux cs []
    else split_ws_aux cs (c :: acc)

/-- Python's `text.split()`: split on whitespace runs, dropping empties. -/
def py_split_whitespace (text : String) : List String :=
  split_ws_aux text.data []

/-- Python's `.strip()`: drop leading and trailing whitespace. -/
def py_strip (s : String) : String :=
  String.mk (((s.data.dropWhile Char.isWhitespace).reverse.dropWhile Char.isWhitespace).reverse)

/-- Python's `.lower()` (ASCII vocabulary). -/
def py_lower (s : String) : String :=
  String.mk (s.data.map Char.toLower)

/-- Python's `.upper()` (ASCII vocabulary). -/
def py_upper (s : String) : String :=
  String.mk (s.data.map Char.toUpper)

/-- Python's `.strip('"\'')`: drop leading and trailing quote characters. -/
def strip_quote_chars (s : String) : String :=
  let isQ := fun c => c == '"' || c == '\''
  String.mk (((s.data.dropWhile isQ).reverse.dropWhile isQ).reverse)

/-- `Tokenizer._contains_operator` from parser.py. -/
def contains_operator (token : String) : Bool :=
  ["=", ">", "<", ">=", "<=", "!="].any (fun op => str_contains token op)

/-- `Tokenizer._parse_attribute_token` from parser.py: first operator (in the
longest-first list) found in the token splits it once into key, operator and
value; the value is stripped of whitespace and quotes. -/
def parse_attribute_token (token : String) : String × String × String :=
  match [">=", "<=", "!=", "=", ">", "<"].find? (fun op => str_contains token op) with
  | some op =>
    match find_sub_split op.data token.data with
    | some pr =>
      let key := py_strip (String.mk pr.1)
      let value := strip_quote_chars (py_strip (String.mk pr.2))
      (key, op, value)
    | none => (token, "", "")
  | none => (token, "", "")

/-- `ParsedToken` from parser.py.  The `confidence` field (a float set to
100.0 on exact match, the fuzzy score on fuzzy match, else 0.0) is carried by
the source but never branched on by the pipeline, and is omitted. -/
structure ParsedToken where
  text : String
  position : Nat
  token_type : TokenType
  word : Option Word
  suggestions : List String
deriving DecidableEq

/-- `ParsedToken.word_type` property. -/
def ParsedToken.word_type (t : ParsedToken) : Option WordType :=
  t.word.map (fun w => w.word_type)

/-- The loop of `Tokenizer.tokenize`: `position` advances by the stripped
token's length plus one per raw token; a `key=value`-style token emits a key
token (UNKNOWN) and a value token (VALUE) when each part is non-empty. -/
def tokenize_go : List String → Nat → List ParsedToken
  | [], _ => []
  | raw :: rest, position =>
    let raw_token := py_strip raw
    if raw_token = "" then tokenize_go rest position
    else
      let next := tokenize_go rest (position + raw_token.length + 1)
      let clean_token :=
        if ['-', '-'].isPrefixOf raw_token.data then String.mk (raw_token.data.drop 2)
        else raw_token
      if contains_operator clean_token then
        let kv := parse_attribute_token clean_token
        (if kv.1 ≠ "" then [⟨kv.1, position, .unknown, none, []⟩] else []) ++
          (if kv.2.2 ≠ "" then
            [⟨kv.2.2, position + kv.1.length + kv.2.1.length, .value, none, []⟩] else []) ++
          next
      else ⟨clean_token, position, .unknown, none, []⟩ :: next

/-- `Tokenizer.tokenize` from parser.py. -/
def tokenize (text : String) : List ParsedToken :=
  tokenize_go (py_split_whitespace text) 0

/-- Python `dict` assignment `d[k] = v`: overwrite in place, else append. -/
def dict_insert (d : List (String × String)) (k v : String) : List (String × String) :=
  if d.any (fun p => p.1 = k) then d.map (fun p => if p.1 = k then (k, v) else p)
  else d ++ [(k, v)]

/-- Python `dict.get`. -/
def dict_get (d : List (String × String)) (k : String) : Option String :=
  (d.find? (fun p => p.1 = k)).map (fun p => p.2)

/-- `WordRecognizer.alias_to_word`: every word id, alias and abbreviation,
lowercased, mapped to the word id, in registry insertion order. -/
def alias_to_word : List (String × String) :=
  WORDS.foldl
    (fun m w =>
      let m := dict_insert m (py_lower w.id) w.id
      let m := w.aliases.foldl (fun m a => dict_insert m (py_lower a) w.id) m
      w.abbreviations.foldl (fun m a => dict_insert m (py_lower a) w.id) m)
    []

/-- The fuzzy branch of `WordRecognizer.recognize_word`, abstracted: given
the lowercased token text, the best registry word id when its rapidfuzz
WRatio score reaches the threshold (default 80), plus the suggestion list
(next-best matches over the relaxed thresholds).  The spec treats the scorer
as a pluggable `WordMatcher`, so theorems quantify over this function. -/
def FuzzyMatcher : Type := String → Option String × List String

/-- `WordRecognizer.recognize_word` from parser.py: exact (alias) match
first, then the fuzzy matcher. -/
def recognize_word (fz : FuzzyMatcher) (token_text : String) : Option Word × List String :=
  let token_lower := py_lower token_text
  match dict_get alias_to_word token_lower with
  | some word_id => (get_word word_id, [])
  | none =>
    match fz token_lower with
    | (some best_word_id, suggestions) => (get_word best_word_id, suggestions)
    | (none, suggestions) => (none, suggestions)

/-- Python's `str.isupper`: at least one cased character and no lowercase
cased character (cased = alphabetic here; the vocabulary is ASCII). -/
def py_isupper (s : String) : Bool :=
  s.data.any Char.isAlpha && s.data.all (fun c => !c.isAlpha || c.isUpper)

/-- `known_values` in `WordRecognizer._is_value_token`. -/
def known_values : List String :=
  ["SA", "SARL", "SAS", "LLC", "INC", "LTD", "GMBH",
   "EUR", "USD", "GBP", "CHF", "CAD", "THOUSANDS", "MILLIONS"]

/-- `WordRecognizer._is_value_token` from parser.py. -/
def is_value_token (text : String) : Bool :=
  if py_isupper text then true
  else if str_contains text "_" || str_contains text "-" then true
  else if text ≠ py_lower text ∧ text ≠ py_upper text then true
  else if known_values.contains (py_upper text) then true
  else false

/-- One step of `WordRecognizer.process_tokens`: only UNKNOWN tokens are
(re)classified. -/
def process_token (fz : FuzzyMatcher) (token : ParsedToken) : ParsedToken :=
  if token.token_type = .unknown then
    match recognize_word fz token.text with
    | (some w, suggestions) =>
      { token with word := some w, suggestions := suggestions, token_type := .word }
    | (none, suggestions) =>
      { token with
          suggestions := suggestions
          token_type := if is_value_token token.text then .value else .unknown }
  else token

/-- `WordRecognizer.process_tokens` from parser.py. -/
def process_tokens (fz : FuzzyMatcher) (tokens : List ParsedToken) : List ParsedToken :=
  tokens.map (process_token fz)

/-- `ValueExtractor.extract_attribute_values` from parser.py: an attribute
word (or an unrecognized UNKNOWN token) immediately followed by a VALUE
token yields an attribute pair. -/
def extract_attribute_values (tokens : List ParsedToken) : List (String × String) :=
  (tokens.zip tokens.tail).foldl
    (fun attributes p =>
      if p.1.token_type == TokenType.word &&
          (match p.1.word with
           | some w => w.word_type == WordType.attribute
           | none => false) &&
          p.2.token_type == TokenType.value then
        dict_insert attributes p.1.text p.2.text
      else if p.1.token_type == TokenType.unknown && p.2.token_type == TokenType.value then
        dict_insert attributes p.1.text p.2.text
      else attributes)
    []

/-- `known_attribute_values` in `ValueExtractor._looks_like_entity_name`. -/
def known_attribute_values : List String :=
  ["SA", "LLC", "INC", "LTD", "EUR", "USD", "GBP", "CHF", "CAD"]

/-- `ValueExtractor._looks_like_entity_name` from parser.py. -/
def looks_like_entity_name (text : String) : Bool :=
  if text.length ≤ 3 && py_isupper text && known_attribute_values.contains text then false
  else
    let has_separators := str_contains text "_" || str_contains text "-"
    let is_mixed_case := text ≠ py_lower text ∧ text ≠ py_upper text
    let is_long_upper := text.length > 3 && py_isupper text
    has_separators || decide is_mixed_case || is_long_upper

/-- `ValueExtractor.extract_entity_values` from parser.py: an entity word
followed by a VALUE token names that entity; with no such pair, the first
standalone VALUE token that looks like an entity name becomes the company
name. -/
def extract_entity_values (tokens : List ParsedToken) : List (String × String) :=
  let entity_values := (tokens.zip tokens.tail).foldl
    (fun ev p =>
      match p.1.word with
      | some w =>
        if p.1.token_type == TokenType.word && w.word_type == WordType.entity &&
            p.2.token_type == TokenType.value then
          let key :=
            if w.id == "company" then "company_name"
            else if w.id == "milestone" then "milestone_name"
            else w.id ++ "_name"
          dict_insert ev key p.2.text
        else ev
      | none => ev)
    []
  if entity_values.isEmpty then
    let standalone_values := tokens.filter (fun t => t.token_type == TokenType.value)
    let entity_candidates :=
      (standalone_values.filter (fun t => looks_like_entity_name t.text)).map
        (fun t => t.text)
    match entity_candidates with
    | [] => []
    | c :: _ => [("company_name", c)]
  else entity_values

/-- `ParseResult` from parser.py, restricted to the fields the pipeline
writes (the model's other defaults are identical). -/
structure ParseResult where
  input_text : String
  tokens : List ParsedToken := []
  recognized_words : List Word := []
  entity_values : List (String × String) := []
  attribute_values : List (String × String) := []
  matching_commands : List Command := []
  best_command : Option Command := none
  is_valid : Bool := false
  errors : List String := []
  suggestions : List String := []
deriving DecidableEq

/-- `VLMXParser._generate_suggestions` from parser.py.  When a best command
was selected, `result.best_command and result.missing_required_words`
evaluates the `missing_required_words` property, which reads
`self.best_command.words.required_words`; `Command` has no `words` attribute
(the field is `syntax`), so an AttributeError escapes, modelled as the
`Except.error`. -/
def generate_suggestions (result : ParseResult) : Except String (List String) :=
  let s1 := result.tokens.foldl
    (fun acc token =>
      if token.token_type == TokenType.unknown && !token.suggestions.isEmpty then
        acc ++ ["Did you mean '" ++ token.suggestions.headD "" ++ "' instead of '" ++
          token.text ++ "'?"]
      else acc)
    []
  match result.best_command with
  | some _ => .error "'Command' object has no attribute 'words'"
  | none =>
    let action_words := result.recognized_words.filter (fun w => w.word_type == WordType.action)
    let entity_words := result.recognized_words.filter (fun w => w.word_type == WordType.entity)
    let s2 :=
      if !action_words.isEmpty && entity_words.isEmpty then
        ["Consider adding an entity word (e.g., 'company', 'milestone')"]
      else []
    let s3 :=
      if !entity_words.isEmpty && action_words.isEmpty then
        ["Consider adding an action word (e.g., 'create', 'delete', 'show')"]
      else []
    let s4 :=
      if !action_words.isEmpty && !entity_words.isEmpty && result.attribute_values.isEmpty then
        match action_words, entity_words with
        | a :: _, e :: _ =>
          if a.id == "create" && e.id == "company" then
            ["Consider adding attributes like --entity=SA --currency=EUR"]
          else []
        | _, _ => []
      else []
    .ok (s1 ++ s2 ++ s3 ++ s4)

/-- The body of `VLMXParser.parse`'s `try` block: the result assembled so
far, paired with `some message` when an exception escapes a step (leaving
the earlier field assignments in place), `none` when the body completes. -/
def parse_try (fz : FuzzyMatcher) (input_text : String) : ParseResult × Option String :=
  let tokens := process_tokens fz (tokenize input_text)
  let recognized_words := tokens.filterMap (fun t => t.word)
  let result0 : ParseResult :=
    { input_text := input_text, tokens := tokens, recognized_words := recognized_words,
      attribute_values := extract_attribute_values tokens,
      entity_values := extract_entity_values tokens }
  -- Step 5: composition validation
  let result1 :=
    if recognized_words ≠ [] then
      match get_composition_error recognized_words with
      | some err => { result0 with errors := result0.errors ++ ["Composition error: " ++ err] }
      | none => { result0 with is_valid := is_valid_command recognized_words }
    else result0
  -- Step 6: command matching and ranking
  let step6 : ParseResult × Option String :=
    if recognized_words ≠ [] then
      let word_ids := recognized_words.map (fun w => w.id)
      let matching_commands := find_commands word_ids
      let result2 := { result1 with matching_commands := matching_commands }
      if matching_commands ≠ [] then
        match select_best_command matching_commands recognized_words with
        | .error e => (result2, some e)
        | .ok best => ({ result2 with best_command := best }, none)
      else (result2, none)
    else (result1, none)
  -- Step 7: suggestions
  match step6 with
  | (r, some e) => (r, some e)
  | (r, none) =>
    match generate_suggestions r with
    | .error e => (r, some e)
    | .ok s => ({ r with suggestions := s }, none)

/-- `VLMXParser.parse` from parser.py: the `except Exception` handler turns
any escaped fault into a `"Parse error: ..."` entry on the result. -/
def parse (fz : FuzzyMatcher) (input_text : String) : ParseResult :=
  match parse_try fz input_text with
  | (result, none) => result
  | (result, some e) => { result with errors := result.errors ++ ["Parse error: " ++ e] }

/-- A fuzzy matcher that never clears the threshold (no fuzzy hits, no
suggestions). -/
def fz_none : FuzzyMatcher := fun _ => (none, [])


/-! Claim theorems. -/

/-- A validator success is always exactly the pair `(true, "")`. -/
theorem validate_go_true_eq (h : Bool) :
    ∀ (l : List Word) (k : Nat), (validate_go h l k).1 = true →
      validate_go h l k = (true, "") := by
  intro l
  induction l with
  | nil => intro k _; rfl
  | cons w rest ih =>
    intro k ht
    simp only [validate_go] at ht ⊢
    split_ifs at ht ⊢ <;> exact ih _ ht

/-- A `validate_command_structure` success is exactly `(true, "")`. -/
theorem validate_true_eq (l : List Word) (h : (validate_command_structure l).1 = true) :
    validate_command_structure l = (true, "") := by
  by_cases he : l.isEmpty
  · simp [validate_command_structure, he] at h
  · simp only [validate_command_structure, he, Bool.false_eq_true, if_false] at h ⊢
    exact validate_go_true_eq _ l 0 h

/-- C4: `validate_command_structure` returns `(true, "")` exactly when the
word sequence is non-empty, the precedences of its non-Attribute words are
non-decreasing, and no Attribute word precedes the first non-Attribute word
unless the sequence is all Attributes; on a precedence decrease it reports
the offending word's id and type; `[Action(create), Entity(company)]`
validates, the reverse fails naming `create`. -/
theorem claim_C4 :
    (∀ l : List Word, (∀ w ∈ l, w.word_type ≠ WordType.filter) →
        (validate_command_structure l = (true, "") ↔
          l ≠ [] ∧ nonDecreasing (orders_of l) = true ∧ no_leading_attribute l = true)) ∧
      validate_command_structure [wCreate, wCompany] = (true, "") ∧
      validate_command_structure [wCompany, wCreate] = (false, invalid_order_msg wCreate) ∧
      invalid_order_msg wCreate =
        "Invalid word order: 'create' (action) cannot come after a word of higher precedence. Expected order: ACTION → MODIFIER → ENTITY → ATTRIBUTES" := by
  refine ⟨?_, by decide, by decide, by decide⟩
  intro l hl
  have hall : (l.all fun w => w.word_type ≠ WordType.filter) = true := by
    rw [List.all_eq_true]
    intro x hx
    simpa using hl x hx
  have h := validate_iff l
  rw [show is_valid_command l = (validate_command_structure l).1 from rfl] at h
  constructor
  · intro hpair
    rcases h.mp (by rw [hpair]) with ⟨h1, _, h3, h4⟩
    exact ⟨h1, h3, h4⟩
  · rintro ⟨h1, h3, h4⟩
    exact validate_true_eq l (h.mpr ⟨h1, hall, h3, h4⟩)

/-- Witness for C4 at a concrete sequence. -/
theorem claim_C4_witness :
    validate_command_structure [wCreate, wEntity, wCompany] = (true, "") ↔
      [wCreate, wEntity, wCompany] ≠ [] ∧
        nonDecreasing (orders_of [wCreate, wEntity, wCompany]) = true ∧
        no_leading_attribute [wCreate, wEntity, wCompany] = true :=
  claim_C4.1 [wCreate, wEntity, wCompany] (by decide)

/-- A permutation of a list whose elements are pairwise equal is that list. -/
theorem perm_eq_of_all_eq {α : Type} (xs ys : List α) (h : xs.Perm ys)
    (hall : ∀ a ∈ ys, ∀ b ∈ ys, a = b) : xs = ys := by
  cases ys with
  | nil => exact h.eq_nil
  | cons y ys' =>
    have hxs : ∀ b ∈ xs, b = y := fun b hb =>
      hall b (h.subset hb) y (List.mem_cons_self y ys')
    have h1 : xs = List.replicate xs.length y := List.eq_replicate_of_mem hxs
    have h2 : y :: ys' = List.replicate (y :: ys').length y :=
      List.eq_replicate_of_mem fun b hb => hall b hb y (List.mem_cons_self y ys')
    rw [h1, h2, h.length_eq]

/-- Canonical sorting is permutation-invariant when the multiset carries at
most one distinct word per type. -/
theorem sort_eq_of_perm_of_unique (l1 l2 : List Word) (hperm : l2.Perm l1)
    (huni : ∀ a ∈ l1, ∀ b ∈ l1, a.word_type = b.word_type → a = b) :
    sort_words_by_type l2 = sort_words_by_type l1 := by
  have key : ∀ t : WordType,
      l2.filter (fun w => decide (w.word_type = t)) =
        l1.filter (fun w => decide (w.word_type = t)) := by
    intro t
    apply perm_eq_of_all_eq _ _ (hperm.filter _)
    intro a ha b hb
    have ha' := List.mem_filter.mp ha
    have hb' := List.mem_filter.mp hb
    refine huni a ha'.1 b hb'.1 ?_
    have hat : a.word_type = t := by simpa using ha'.2
    have hbt : b.word_type = t := by simpa using hb'.2
    rw [hat, hbt]
  unfold sort_words_by_type
  rw [key .action, key .modifier, key .entity, key .attribute]

/-- C3 (amended): for a word multiset that passes composition validation
**and contains no two distinct words of the same type**, canonical sorting
applied to any permutation produces the same output list.  (The original
claim fails without the uniqueness condition: see the counterexample.) -/
theorem claim_C3 (l1 l2 : List Word) (_hvalid : is_valid_command l1 = true)
    (huni : ∀ a ∈ l1, ∀ b ∈ l1, a.word_type = b.word_type → a = b)
    (hperm : l2.Perm l1) :
    sort_words_by_type l2 = sort_words_by_type l1 :=
  sort_eq_of_perm_of_unique l1 l2 hperm huni

/-- Witness for C3: a valid two-word multiset with distinct types sorts the
same from either arrangement. -/
theorem claim_C3_witness :
    sort_words_by_type [wCompany, wCreate] = sort_words_by_type [wCreate, wCompany] :=
  claim_C3 [wCreate, wCompany] [wCompany, wCreate] (by decide) (by decide)
    (List.Perm.swap wCreate wCompany [])

/-- Counterexample to C3 as stated: `[entity, currency]` and
`[currency, entity]` are permutations of one multiset, both orderings pass
composition validation (all-Attribute sequences are legal), yet canonical
sorting returns the two different input orders, because Attribute words keep
their relative input order. -/
theorem claim_C3_counterexample :
    List.Perm [wCurrency, wEntity] [wEntity, wCurrency] ∧
      is_valid_command [wEntity, wCurrency] = true ∧
      is_valid_command [wCurrency, wEntity] = true ∧
      sort_words_by_type [wEntity, wCurrency] ≠ sort_words_by_type [wCurrency, wEntity] :=
  ⟨List.Perm.swap wEntity wCurrency [], by decide, by decide, by decide⟩

/-- C8: the `create_company` registration (required `{create, company}`,
optional `{entity, currency}`) validates `["create","company","entity"]` as
`(true, "")` and `["create"]` as `(false, "Missing required words:
company")`. -/
theorem claim_C8 :
    create_company.validate_words ["create", "company", "entity"] = (true, "") ∧
      create_company.validate_words ["create"] =
        (false, "Missing required words: company") :=
  ⟨by decide, by decide⟩

/-- C5 (the code at the claim's failing input): with recognized word
`company`, both registered commands match; `_select_best_command` on those
two candidates does not return the ranking maximum — its score function
reads the non-existent `Command.words` attribute and raises, so the call
errors instead of returning a command. -/
theorem claim_C5 :
    find_commands ["company"] = [create_company, delete_company] ∧
      select_best_command [create_company, delete_company] [wCompany] =
        Except.error "'Command' object has no attribute 'words'" :=
  ⟨by decide, rfl⟩

/-- C2 (the code at the claim's failing input): a level-1 `Context` with
`app_id` set is accepted by construction — the source's level-1 application
check `self.app_id is None is False and self.app_id is not None` is
identically false — while the claim (and the validator's own error message)
requires rejection.  The other half of the claim's example does hold: a
level-1 `Context` with no organization name fails construction. -/
theorem claim_C2 :
    construct_context 1 (some 1) (some "ACME") (some "app1") =
        Except.ok ⟨1, some 1, some "ACME", some "app1"⟩ ∧
      construct_context 1 (some 1) none none =
        Except.error "At level 1 (org), org_id and org_name must not be None" ∧
      construct_context 0 (some 0) none none = Except.ok ⟨0, some 0, none, none⟩ :=
  ⟨rfl, rfl, rfl⟩

/-- `no_leading_attribute` splits into the all-Attributes disjunct and the
head check. -/
theorem no_leading_eq (l : List Word) :
    no_leading_attribute l =
      ((l.all fun w => w.word_type = .attribute) || head_not_attribute l) := by
  cases l <;> rfl

/-- `orders_of` distributes over append. -/
theorem orders_of_append (l l2 : List Word) :
    orders_of (l ++ l2) = orders_of l ++ orders_of l2 := by
  simp [orders_of, List.filter_append]

/-- All-Attribute suffixes contribute no precedences. -/
theorem orders_of_all_attributes (l2 : List Word)
    (h : ∀ a ∈ l2, a.word_type = WordType.attribute) : orders_of l2 = [] := by
  simp only [orders_of, List.map_eq_nil_iff, List.filter_eq_nil_iff]
  intro a ha
  simp [h a ha]

/-- Appending anything to a sequence with a non-Attribute head keeps the
no-leading-Attribute property. -/
theorem no_leading_append (l l2 : List Word) (hne : l ≠ [])
    (hh : head_not_attribute l = true) : no_leading_attribute (l ++ l2) = true := by
  rcases l with _ | ⟨x, xs⟩
  · exact absurd rfl hne
  · have hx : ¬ x.word_type = WordType.attribute := by
      simpa [head_not_attribute] using hh
    simp [no_leading_eq, head_not_attribute, hx]

/-- A valid sequence containing a non-Attribute word has a non-Attribute
head. -/
theorem head_not_attr_of_valid (l : List Word) (hnla : no_leading_attribute l = true)
    (w : Word) (hw : w ∈ l) (hwa : w.word_type ≠ WordType.attribute) :
    head_not_attribute l = true := by
  rw [no_leading_eq] at hnla
  rcases Bool.or_eq_true_iff.mp hnla with hall | hh
  · exact absurd (by simpa using List.all_eq_true.mp hall w hw) hwa
  · exact hh

/-- Appending known-type words to a valid sequence that contains a
non-Attribute word preserves validity, provided the combined precedences
stay non-decreasing. -/
theorem valid_append (l l2 : List Word) (hv : is_valid_command l = true)
    (hl2f : ∀ a ∈ l2, a.word_type ≠ WordType.filter)
    (w : Word) (hw : w ∈ l) (hwa : w.word_type ≠ WordType.attribute)
    (hnd2 : nonDecreasing (orders_of (l ++ l2)) = true) :
    is_valid_command (l ++ l2) = true := by
  rcases (validate_iff l).mp hv with ⟨hne, hnf, _, hnla⟩
  rw [validate_iff]
  refine ⟨?_, ?_, hnd2, ?_⟩
  · rcases l with _ | ⟨x, xs⟩
    · exact absurd rfl hne
    · simp
  · rw [List.all_append, hnf]
    rw [Bool.true_and, List.all_eq_true]
    intro a ha
    simpa using hl2f a ha
  · exact no_leading_append l l2 hne (head_not_attr_of_valid l hnla w hw hwa)

/-- C6: appending Attribute words, in any order, to a valid sequence whose
last word is a non-Attribute word yields a sequence that still validates. -/
theorem claim_C6 (l attrs : List Word) (w : Word)
    (hvalid : is_valid_command l = true)
    (hlast : l.getLast? = some w) (hw : w.word_type ≠ WordType.attribute)
    (hattrs : ∀ a ∈ attrs, a.word_type = WordType.attribute) :
    is_valid_command (l ++ attrs) = true := by
  have hwmem : w ∈ l := List.mem_of_mem_getLast? hlast
  rcases (validate_iff l).mp hvalid with ⟨_, _, hnd, _⟩
  apply valid_append l attrs hvalid (fun a ha => by simp [hattrs a ha]) w hwmem hw
  rw [orders_of_append, orders_of_all_attributes attrs hattrs, List.append_nil]
  exact hnd

/-- Witness for C6 at a concrete sequence and pair of trailing attributes. -/
theorem claim_C6_witness :
    is_valid_command ([wCreate, wCompany] ++ [wCurrency, wEntity]) = true :=
  claim_C6 [wCreate, wCompany] [wCurrency, wEntity] wCompany (by decide) (by decide)
    (by decide) (by decide)

/-- The `max_order` fold never drops below its initial value. -/
theorem max_fold_ge_init (l : List Word) :
    ∀ a : Nat,
      a ≤ l.foldl
        (fun m w => if w.word_type ≠ .attribute then max m (get_order w.word_type) else m) a := by
  induction l with
  | nil => intro a; exact Nat.le_refl a
  | cons w rest ih =>
    intro a
    rw [List.foldl_cons]
    refine Nat.le_trans ?_ (ih _)
    by_cases hw : w.word_type = WordType.attribute
    · simp [hw]
    · simp only [hw, ne_eq, not_false_eq_true, if_pos]
      exact Nat.le_max_left _ _

/-- The `max_order` fold dominates the precedence of every non-Attribute
member. -/
theorem max_fold_ge_mem (w : Word) (hwa : w.word_type ≠ WordType.attribute) :
    ∀ l : List Word, w ∈ l → ∀ a : Nat,
      get_order w.word_type ≤ l.foldl
        (fun m w => if w.word_type ≠ .attribute then max m (get_order w.word_type) else m) a := by
  intro l
  induction l with
  | nil => intro hw a; exact absurd hw (List.not_mem_nil w)
  | cons x rest ih =>
    intro hw a
    rw [List.foldl_cons]
    rcases List.mem_cons.mp hw with rfl | hmem
    · refine Nat.le_trans ?_ (max_fold_ge_init rest _)
      simp only [hwa, ne_eq, not_false_eq_true, if_pos]
      exact Nat.le_max_right _ _
    · exact ih hmem _

/-- `max_non_attribute_order` dominates each non-Attribute member. -/
theorem max_order_ge (l : List Word) (w : Word) (hw : w ∈ l)
    (hwa : w.word_type ≠ WordType.attribute) :
    get_order w.word_type ≤ max_non_attribute_order l :=
  max_fold_ge_mem w hwa l hw 0

/-- Membership in `get_expected_next_word_types` for a non-empty prefix. -/
theorem mem_next_types (l : List Word) (hne : l ≠ []) (t : WordType) :
    t ∈ get_expected_next_word_types l ↔
      t = WordType.attribute ∨ (t = WordType.action ∧ max_non_attribute_order l < 1) ∨
        (t = WordType.modifier ∧ max_non_attribute_order l < 2) ∨
        (t = WordType.entity ∧ max_non_attribute_order l < 3) := by
  have hie : l.isEmpty = false := by
    rcases l with _ | _
    · exact absurd rfl hne
    · rfl
  simp only [get_expected_next_word_types, hie, Bool.false_eq_true, if_false]
  by_cases h1 : max_non_attribute_order l < 1 <;>
    by_cases h2 : max_non_attribute_order l < 2 <;>
      by_cases h3 : max_non_attribute_order l < 3 <;>
        rcases t <;> simp_all

/-- The one-step nonDecreasing unfolding. -/
theorem nonDecreasing_cons_cons (a b : Nat) (rest : List Nat) :
    nonDecreasing (a :: b :: rest) = (decide (a ≤ b) && nonDecreasing (b :: rest)) := rfl

/-- Appending one element no smaller than the last keeps non-decrease. -/
theorem nonDecreasing_append_single :
    ∀ (xs : List Nat) (a b : Nat), nonDecreasing xs = true → xs.getLast? = some a →
      a ≤ b → nonDecreasing (xs ++ [b]) = true := by
  intro xs
  induction xs with
  | nil => intro a b _ hl _; simp at hl
  | cons x ys ih =>
    intro a b hnd hl hab
    cases ys with
    | nil =>
      have hax : x = a := by simpa using hl
      subst hax
      simpa [nonDecreasing_cons_cons, nonDecreasing] using hab
    | cons y ys' =>
      rw [List.getLast?_cons_cons] at hl
      rw [nonDecreasing_cons_cons] at hnd
      rcases (Bool.and_eq_true _ _).mp hnd with ⟨hxy, hnd'⟩
      have htail := ih a b hnd' hl hab
      rw [List.cons_append, List.cons_append, nonDecreasing_cons_cons]
      rw [List.cons_append] at htail
      rw [htail, hxy]
      rfl

/-- Filtering preserves a last element that satisfies the predicate. -/
theorem filter_getLast_aux (p : Word → Bool) (w : Word) (hp : p w = true) :
    ∀ l : List Word, l.getLast? = some w → (l.filter p).getLast? = some w := by
  intro l
  induction l with
  | nil => intro h; simp at h
  | cons x xs ih =>
    intro hlast
    cases hxs : xs with
    | nil =>
      subst hxs
      have hxw : x = w := by simpa using hlast
      subst hxw
      simp [List.filter_cons, hp]
    | cons y ys =>
      subst hxs
      rw [List.getLast?_cons_cons] at hlast
      have htail := ih hlast
      rw [List.filter_cons]
      by_cases hx : p x = true
      · rw [if_pos hx]
        have hne : (y :: ys).filter p ≠ [] := by
          intro h0
          rw [h0] at htail
          simp at htail
        rcases List.exists_cons_of_ne_nil hne with ⟨z, zs, hzz⟩
        rw [hzz] at htail ⊢
        rw [List.getLast?_cons_cons]
        exact htail
      · rw [if_neg hx]
        exact htail

/-- The last precedence recorded by `orders_of` is the last non-Attribute
word's precedence. -/
theorem orders_of_last (l : List Word) (w : Word) (hlast : l.getLast? = some w)
    (hwa : w.word_type ≠ WordType.attribute) :
    (orders_of l).getLast? = some (get_order w.word_type) := by
  have hfl := filter_getLast_aux (fun x => decide (x.word_type ≠ WordType.attribute)) w
    (by simp [hwa]) l hlast
  unfold orders_of
  rw [List.getLast?_map, hfl]
  rfl

/-- C9: after at least one non-Attribute word, completion offers exactly
Attribute plus the types of strictly greater precedence than the highest
non-Attribute precedence seen — never a non-Attribute type already used —
while the validator accepts appending another word of the type just used
(equal precedence is non-decreasing); e.g. two Action words validate while
ACTION is absent from the suggestions after the first. -/
theorem claim_C9 :
    (∀ l : List Word, (∀ w ∈ l, w.word_type ≠ WordType.filter) →
        (∃ w ∈ l, w.word_type ≠ WordType.attribute) →
        ∀ t : WordType,
          (t ∈ get_expected_next_word_types l ↔
            t = WordType.attribute ∨
              (t ≠ WordType.attribute ∧ t ≠ WordType.filter ∧
                max_non_attribute_order l < get_order t))) ∧
      (∀ (l : List Word) (w : Word), w ∈ l → w.word_type ≠ WordType.attribute →
          w.word_type ∉ get_expected_next_word_types l) ∧
      (∀ (l : List Word) (w w' : Word), is_valid_command l = true →
          l.getLast? = some w → w.word_type ≠ WordType.attribute →
          w'.word_type = w.word_type → is_valid_command (l ++ [w']) = true) ∧
      is_valid_command [wCreate, wDelete] = true ∧
      WordType.action ∉ get_expected_next_word_types [wCreate] := by
  refine ⟨?_, ?_, ?_, by decide, by decide⟩
  · rintro l _ ⟨w0, hw0, _⟩ t
    have hne : l ≠ [] := by
      rintro rfl
      exact (List.not_mem_nil w0) hw0
    rw [mem_next_types l hne t]
    rcases t <;>
      simp [get_order_action, get_order_modifier, get_order_entity, get_order_attribute,
        get_order_filter]
  · intro l w hw hwa hmem
    have hne : l ≠ [] := by
      rintro rfl
      exact (List.not_mem_nil w) hw
    rw [mem_next_types l hne] at hmem
    have hle := max_order_ge l w hw hwa
    rcases hmem with h | ⟨ht, hM⟩ | ⟨ht, hM⟩ | ⟨ht, hM⟩
    · exact hwa h
    · rw [ht, get_order_action] at hle
      omega
    · rw [ht, get_order_modifier] at hle
      omega
    · rw [ht, get_order_entity] at hle
      omega
  · intro l w w' hv hlast hwa hw't
    have hwmem : w ∈ l := List.mem_of_mem_getLast? hlast
    rcases (validate_iff l).mp hv with ⟨_, hnf, hnd, _⟩
    refine valid_append l [w'] hv ?_ w hwmem hwa ?_
    · intro a ha
      have ha' : a = w' := by simpa using ha
      rw [ha', hw't]
      simpa using List.all_eq_true.mp hnf w hwmem
    · have hords : orders_of [w'] = [get_order w.word_type] := by
        have hw'a : ¬ w'.word_type = WordType.attribute := by
          rw [hw't]
          exact hwa
        simp [orders_of, List.filter_cons, hw'a, hw't, hwa]
      rw [orders_of_append, hords]
      exact nonDecreasing_append_single _ _ _ hnd (orders_of_last l w hlast hwa)
        (Nat.le_refl _)

/-- Witness for C9 at a concrete prefix. -/
theorem claim_C9_witness :
    WordType.entity ∈ get_expected_next_word_types [wCreate] ↔
      WordType.entity = WordType.attribute ∨
        (WordType.entity ≠ WordType.attribute ∧ WordType.entity ≠ WordType.filter ∧
          max_non_attribute_order [wCreate] < get_order WordType.entity) :=
  claim_C9.1 [wCreate] (by decide) ⟨wCreate, by decide, by decide⟩ WordType.entity

/-- C7: when every recognized id resolves and the word sequence passes the
Composition Validator, `find_matching_commands` returns exactly the
registered commands (in registration order) whose full word set is a
superset of the recognized ids; when composition fails it returns the empty
list; and satisfying a command's required words is not needed to match —
`delete_company` matches recognized ids `["company"]` although its required
set is not contained in them. -/
theorem claim_C7 :
    (∀ (registry : List Command) (word_ids : List String),
        (word_ids.filterMap get_word).length = word_ids.length →
        is_valid_command (word_ids.filterMap get_word) = true →
        find_matching_commands registry word_ids =
          registry.filter fun command =>
            set_subset (py_set word_ids) command.syntax_words.get_all_words) ∧
      (∀ (registry : List Command) (word_ids : List String),
          is_valid_command (word_ids.filterMap get_word) = false →
          find_matching_commands registry word_ids = []) ∧
      (delete_company ∈ find_commands ["company"] ∧
        set_subset delete_company.syntax_words.required_words (py_set ["company"]) = false) := by
  refine ⟨?_, ?_, by decide, by decide⟩
  · intro registry word_ids hlen hvalid
    simp [find_matching_commands, hlen, hvalid]
  · intro registry word_ids hvalid
    by_cases hlen : (word_ids.filterMap get_word).length = word_ids.length
    · simp [find_matching_commands, hlen, hvalid]
    · simp [find_matching_commands, hlen]

/-- Witness for C7 at the registered registry and a concrete query. -/
theorem claim_C7_witness :
    find_matching_commands command_registry ["company"] =
      command_registry.filter fun command =>
        set_subset (py_set ["company"]) command.syntax_words.get_all_words :=
  claim_C7.1 command_registry ["company"] (by decide) (by decide)

/-- C1: `parse` is a total function into `ParseResult`; when the pipeline
body faults mid-way the partial result is returned with a generic
`"Parse error: ..."` entry appended to its errors, and when the body
completes the result is returned as built.  Concretely, input `"company"`
(which triggers the `Command.words` attribute fault during ranking) yields
exactly one such generic error entry and no exception. -/
theorem claim_C1 :
    (∀ (fz : FuzzyMatcher) (input_text : String) (r : ParseResult) (e : String),
        parse_try fz input_text = (r, some e) →
        parse fz input_text = { r with errors := r.errors ++ ["Parse error: " ++ e] }) ∧
      (∀ (fz : FuzzyMatcher) (input_text : String) (r : ParseResult),
          parse_try fz input_text = (r, none) → parse fz input_text = r) ∧
      (parse fz_none "company").errors =
        ["Parse error: 'Command' object has no attribute 'words'"] := by
  refine ⟨?_, ?_, by decide⟩
  · intro fz input_text r e h
    simp [parse, h]
  · intro fz input_text r h
    simp [parse, h]

/-- Witness for C1: the fault raised while ranking the two candidate
commands for input `"company"` is caught and converted. -/
theorem claim_C1_witness :
    parse fz_none "company" =
      { (parse_try fz_none "company").1 with
          errors := (parse_try fz_none "company").1.errors ++
            ["Parse error: 'Command' object has no attribute 'words'"] } :=
  claim_C1.1 fz_none "company" (parse_try fz_none "company").1
    "'Command' object has no attribute 'words'" (by decide)

/-- C10: whenever recognition leaves every token without a word (the empty
input included), `parse` returns with `is_valid = false`, no best command
and an empty errors list — the composition step is skipped, so the
validator's "Command cannot be empty" diagnostic never surfaces. -/
theorem claim_C10 :
    ∀ (fz : FuzzyMatcher) (input_text : String),
      (∀ t ∈ process_tokens fz (tokenize input_text), t.word = none) →
      (parse fz input_text).is_valid = false ∧
        (parse fz input_text).best_command = none ∧
        (parse fz input_text).errors = [] := by
  intro fz input_text h
  have hrec : (process_tokens fz (tokenize input_text)).filterMap (fun t => t.word) = [] :=
    List.filterMap_eq_nil_iff.mpr h
  simp [parse, parse_try, hrec, generate_suggestions]

/-- Witness for C10 at a concrete unrecognizable input. -/
theorem claim_C10_witness :
    (parse fz_none "zzz").is_valid = false ∧ (parse fz_none "zzz").best_command = none ∧
      (parse fz_none "zzz").errors = [] :=
  claim_C10 fz_none "zzz" (by decide)
